import Mathlib

set_option maxRecDepth 100000

/-!
Verification of the caching layer of the RAG query-builder service
(`src/rag/app.py`) against its specification.

The development shallowly embeds the pieces of the source the claims are
about: SHA-256 key derivation (`CacheManager._hash_key` and the three
`get_*_key` builders), the memory and redis cache backends
(`CacheManager.get` / `set` / `clear`), and the three cache-fronted
operations (`embed`, `retrieve`, `api_report`) plus the `clear_cache`
endpoint.  External collaborators (the OpenAI embedding and chat APIs and
the Chroma vector store) are modelled as deterministic oracle functions
carried in an `Env` record; wall-clock time (`datetime.now()`) is an
explicit integer parameter; the per-process configuration read from the
environment at startup is also carried in `Env`.

Python reference semantics matter in one place and are modelled explicitly:
with the memory backend the cache dictionary stores object references, so
the `cached_response.cached = True` assignment on the full-answer hit path
of `api_report` mutates the record held in storage.  The model performs
the corresponding in-place update of the stored entry.  The redis backend
returns a fresh `pickle.loads` copy, so no store update happens there.

Exceptions raised by the redis client are modelled by the `redis_fault`
flag of `Env`: when it is set, every redis operation raises, and the
`try/except` blocks of the source are mirrored by the corresponding
branches of the model.

`CacheManager.ghost_chunks` is proof instrumentation only: it records, per
full-answer cache key, the number of retrieved context chunks at the
moment the answer was computed and stored.  No modelled operation reads it
to produce a result; it only lets theorems talk about the provenance of a
stored answer.
-/

namespace RagApp

/-! ### SHA-256, as computed by `hashlib.sha256(...).hexdigest()` -/

/-- 2^32, the word modulus of SHA-256. -/
def M32 : Nat := 4294967296

/-- Right rotation of a 32-bit word. -/
def rotr32 (n x : Nat) : Nat := ((x >>> n) ||| (x <<< (32 - n))) % M32

/-- The SHA-256 choice function; the complement is taken by xor with the
all-ones 32-bit word. -/
def ch32 (x y z : Nat) : Nat := (x &&& y) ^^^ ((x ^^^ 4294967295) &&& z)

/-- The SHA-256 majority function. -/
def maj32 (x y z : Nat) : Nat := (x &&& y) ^^^ (x &&& z) ^^^ (y &&& z)

/-- SHA-256 big sigma 0. -/
def bsig0 (x : Nat) : Nat := rotr32 2 x ^^^ rotr32 13 x ^^^ rotr32 22 x

/-- SHA-256 big sigma 1. -/
def bsig1 (x : Nat) : Nat := rotr32 6 x ^^^ rotr32 11 x ^^^ rotr32 25 x

/-- SHA-256 small sigma 0. -/
def ssig0 (x : Nat) : Nat := rotr32 7 x ^^^ rotr32 18 x ^^^ (x >>> 3)

/-- SHA-256 small sigma 1. -/
def ssig1 (x : Nat) : Nat := rotr32 17 x ^^^ rotr32 19 x ^^^ (x >>> 10)

/-- The 64 SHA-256 round constants of FIPS 180-4 (the fractional parts of
the cube roots of the first 64 primes), written in decimal. -/
def sha256K : List Nat :=
  [1116352408, 1899447441, 3049323471, 3921009573, 961987163, 1508970993,
   2453635748, 2870763221, 3624381080, 310598401, 607225278, 1426881987,
   1925078388, 2162078206, 2614888103, 3248222580, 3835390401, 4022224774,
   264347078, 604807628, 770255983, 1249150122, 1555081692, 1996064986,
   2554220882, 2821834349, 2952996808, 3210313671, 3336571891, 3584528711,
   113926993, 338241895, 666307205, 773529912, 1294757372, 1396182291,
   1695183700, 1986661051, 2177026350, 2456956037, 2730485921, 2820302411,
   3259730800, 3345764771, 3516065817, 3600352804, 4094571909, 275423344,
   430227734, 506948616, 659060556, 883997877, 958139571, 1322822218,
   1537002063, 1747873779, 1955562222, 2024104815, 2227730452, 2361852424,
   2428436474, 2756734187, 3204031479, 3329325298]

/-- Merkle-Damgard padding: a `0x80` byte, zeros to 56 mod 64, and the
bit length as eight big-endian bytes. -/
def padBytes (m : List Nat) : List Nat :=
  let z := (120 - ((m.length + 1) % 64)) % 64
  let L := m.length * 8
  m ++ [0x80] ++ List.replicate z 0 ++
    [(L >>> 56) % 256, (L >>> 48) % 256, (L >>> 40) % 256, (L >>> 32) % 256,
     (L >>> 24) % 256, (L >>> 16) % 256, (L >>> 8) % 256, L % 256]

/-- Big-endian grouping of bytes into 32-bit words. -/
def bytesToWords : List Nat → List Nat
  | a :: b :: c :: d :: rest => (a * 16777216 + b * 65536 + c * 256 + d) :: bytesToWords rest
  | _ => []

/-- Fuel-driven grouping into 16-word blocks (the fuel keeps the recursion
structural so the kernel can evaluate it). -/
def wordsToBlocksAux : Nat → List Nat → List (List Nat)
  | 0, _ => []
  | _, [] => []
  | fuel + 1, ws => ws.take 16 :: wordsToBlocksAux fuel (ws.drop 16)

/-- Group a word list into 16-word blocks. -/
def wordsToBlocks (ws : List Nat) : List (List Nat) := wordsToBlocksAux ws.length ws

/-- Extend the message schedule by the given number of words. -/
def schedAux : Nat → List Nat → List Nat
  | 0, w => w
  | fuel + 1, w =>
      let n := w.length
      schedAux fuel (w ++ [(ssig1 (w.getD (n - 2) 0) + w.getD (n - 7) 0 +
                            ssig0 (w.getD (n - 15) 0) + w.getD (n - 16) 0) % M32])

/-- The 64-word message schedule of a block. -/
def schedule (block : List Nat) : List Nat := schedAux 48 block

/-- The eight 32-bit working variables of the compression function. -/
structure Hash8 where
  a : Nat
  b : Nat
  c : Nat
  d : Nat
  e : Nat
  f : Nat
  g : Nat
  h : Nat
deriving DecidableEq

/-- One round of the SHA-256 compression function; `kw` carries the round
constant and the schedule word. -/
def compressStep (s : Hash8) (kw : Nat × Nat) : Hash8 :=
  let t1 := (s.h + bsig1 s.e + ch32 s.e s.f s.g + kw.1 + kw.2) % M32
  let t2 := (bsig0 s.a + maj32 s.a s.b s.c) % M32
  ⟨(t1 + t2) % M32, s.a, s.b, s.c, (s.d + t1) % M32, s.e, s.f, s.g⟩

/-- Process one 16-word block: 64 rounds, then add into the chaining value. -/
def processBlock (s : Hash8) (block : List Nat) : Hash8 :=
  let t := (sha256K.zip (schedule block)).foldl compressStep s
  ⟨(s.a + t.a) % M32, (s.b + t.b) % M32, (s.c + t.c) % M32, (s.d + t.d) % M32,
   (s.e + t.e) % M32, (s.f + t.f) % M32, (s.g + t.g) % M32, (s.h + t.h) % M32⟩

/-- The SHA-256 initial hash value of FIPS 180-4, in decimal. -/
def sha256Start : Hash8 :=
  ⟨1779033703, 3144134277, 1013904242, 2773480762,
   1359893119, 2600822924, 528734635, 1541459225⟩

/-- The eight words of a hash state, in output order. -/
def hash8Words (s : Hash8) : List Nat := [s.a, s.b, s.c, s.d, s.e, s.f, s.g, s.h]

/-- Lower-case hex digit. -/
def hexDigit (n : Nat) : Char := if n < 10 then Char.ofNat (48 + n) else Char.ofNat (87 + n)

/-- Eight hex digits of a 32-bit word, most significant first. -/
def wordToHex (w : Nat) : List Char :=
  [hexDigit ((w >>> 28) % 16), hexDigit ((w >>> 24) % 16), hexDigit ((w >>> 20) % 16),
   hexDigit ((w >>> 16) % 16), hexDigit ((w >>> 12) % 16), hexDigit ((w >>> 8) % 16),
   hexDigit ((w >>> 4) % 16), hexDigit (w % 16)]

/-- SHA-256 of a byte list, as a lower-case hex string. -/
def sha256hexBytes (m : List Nat) : String :=
  let final := (wordsToBlocks (bytesToWords (padBytes m))).foldl processBlock sha256Start
  ⟨((hash8Words final).map wordToHex).flatten⟩

/-- UTF-8 encoding of one character, as Python `str.encode()` produces it. -/
def utf8Bytes (c : Char) : List Nat :=
  let n := c.toNat
  if n < 128 then [n]
  else if n < 2048 then [192 + n / 64, 128 + n % 64]
  else if n < 65536 then [224 + n / 4096, 128 + (n / 64) % 64, 128 + n % 64]
  else [240 + n / 262144, 128 + (n / 4096) % 64, 128 + (n / 64) % 64, 128 + n % 64]

/-- UTF-8 bytes of a string. -/
def strBytes (s : String) : List Nat := ((s.data).map utf8Bytes).flatten

/-- `hashlib.sha256(s.encode()).hexdigest()`. -/
def sha256hex (s : String) : String := sha256hexBytes (strBytes s)

/-! ### Python values and their `str()` form -/

/-- The primitive values the source passes to `_hash_key`: strings and
integers. -/
inductive PyVal where
  | str (s : String)
  | int (i : Int)
deriving DecidableEq

/-- Python `str()` on those values; `str` of an `int` is its decimal form,
which never contains a colon. -/
def pyStr : PyVal → String
  | .str s => s
  | .int i => toString i

/-! ### Data model -/

/-- Chunk metadata as ingested into the vector store: the source file
name and the chunk index. -/
structure Meta where
  source : String
  chunk : Nat
deriving DecidableEq

/-- One retrieved context chunk: `(document text, metadata)`. -/
abbrev Chunk := String × Meta

/-- The parsed JSON object produced by the generation model, after the
`data.get(..., default)` normalisation of `api_report` (the oracle folds
`call_openai` and `parse_json` together; generation-provider failures are
outside the cache layer and outside the claims). -/
structure LLMData where
  tables_used : List String
  columns_used : List String
  joins_explained : List String
  assumptions : List String
  sql : String
deriving DecidableEq

/-- The `AskResponse` pydantic model: the full Answer record. -/
structure AskResponse where
  tables_used : List String
  columns_used : List String
  joins_explained : List String
  assumptions : List String
  sql : String
  retrieved_chunks : Nat
  model_used : String
  cached : Bool
deriving DecidableEq

/-- The `AskRequest` pydantic model; `top_k` and `use_cache` are optional. -/
structure AskRequest where
  question : String
  top_k : Option Int
  use_cache : Option Bool
deriving DecidableEq

/-- A value held in the cache: an embedding vector, a retrieval result, or
a full answer.  Embedding scalars are modelled as integers; the claims
never compute with the float values, only store and return them. -/
inductive CacheVal where
  | emb (v : List Int)
  | retr (v : List Chunk)
  | resp (r : AskResponse)
deriving DecidableEq

/-- Whether a cache value is a full-answer record. -/
def CacheVal.isResp : CacheVal → Bool
  | .resp _ => true
  | _ => false

/-- The two backends of `CacheManager`. -/
inductive CacheType where
  | memory
  | redis
deriving DecidableEq

/-- The per-process configuration and the external collaborators, all
fixed at startup: model names, the default `TOP_K`, the global cache
switch, whether the redis client raises on every operation, and the
deterministic oracles for the embedding API, the vector store and the
generation model. -/
structure Env where
  OPENAI_MODEL : String
  OPENAI_EMBED_MODEL : String
  TOP_K : Int
  CACHE_ENABLED : Bool
  redis_fault : Bool
  embedApi : String → List Int
  vsQuery : List Int → Int → List String × List Meta
  llm : String → String → LLMData

/-! ### Association lists standing in for the Python dict and the redis
keyspace.  `alInsert` moves an updated binding to the front; through
`alLookup` this is observationally the dict update `d[k] = v`. -/

/-- Dictionary lookup. -/
def alLookup {α : Type} (l : List (String × α)) (k : String) : Option α :=
  (l.find? (fun p => p.1 == k)).map (fun p => p.2)

/-- Dictionary deletion (`del d[k]`). -/
def alErase {α : Type} (l : List (String × α)) (k : String) : List (String × α) :=
  l.filter (fun p => p.1 != k)

/-- Dictionary update (`d[k] = v`). -/
def alInsert {α : Type} (l : List (String × α)) (k : String) (v : α) : List (String × α) :=
  (k, v) :: alErase l k

/-- A memory-backend entry: `(value, stored-at timestamp, ttl seconds)`. -/
abbrev MemEntry := CacheVal × Int × Int

/-- In-place replacement of the value object of the entry at `k`, keeping
the timestamp and ttl: this is what a Python mutation of the stored value
object does to the dict. -/
def alSetVal (l : List (String × MemEntry)) (k : String) (v : CacheVal) :
    List (String × MemEntry) :=
  l.map (fun p => if p.1 == k then (p.1, v, p.2.2.1, p.2.2.2) else p)

/-- The state of the `cache_manager` object.  `memory_cache` is the dict of
the memory backend; `redis_store` models the remote keyspace as the pairs
`(pickled value, ttl)` written by `setex` (server-side expiry is not
modelled; no claim depends on it).  `ghost_chunks` is proof
instrumentation only (see the file header). -/
structure CacheManager where
  cache_type : CacheType
  memory_cache : List (String × MemEntry)
  redis_store : List (String × CacheVal × Int)
  ghost_chunks : List (String × Nat)
deriving DecidableEq

/-- `CacheManager.__init__`: if redis is requested but the connection
cannot be established, fall back to the memory backend. -/
def CacheManager.make (cache_type : CacheType) (redis_ok : Bool) : CacheManager :=
  if cache_type = .redis ∧ redis_ok = false then ⟨.memory, [], [], []⟩
  else ⟨cache_type, [], [], []⟩

/-- `CacheManager._hash_key`: join the `str()` forms of the arguments with
a colon and take the SHA-256 hex digest. -/
def CacheManager.hash_key (args : List PyVal) : String :=
  sha256hex (String.intercalate ":" (args.map pyStr))

/-- `CacheManager.get`.  Returns the value (or `none`) and the successor
state.  When caching is globally disabled the answer is `none` and the
state is untouched.  A faulting redis fetch is caught and reported as a
miss.  A memory entry read past its ttl is deleted on the spot. -/
def CacheManager.get (env : Env) (cm : CacheManager) (now : Int) (key : String) :
    Option CacheVal × CacheManager :=
  if env.CACHE_ENABLED = false then (none, cm)
  else
    match cm.cache_type with
    | .redis =>
        if env.redis_fault then (none, cm)
        else ((alLookup cm.redis_store key).map (fun p => p.1), cm)
    | .memory =>
        match alLookup cm.memory_cache key with
        | some (value, timestamp, ttl) =>
            if now - timestamp < ttl then (some value, cm)
            else (none, { cm with memory_cache := alErase cm.memory_cache key })
        | none => (none, cm)

/-- `CacheManager.set`.  A no-op when caching is globally disabled; a
faulting redis write is caught and dropped. -/
def CacheManager.set (env : Env) (cm : CacheManager) (now : Int) (key : String)
    (value : CacheVal) (ttl : Int) : CacheManager :=
  if env.CACHE_ENABLED = false then cm
  else
    match cm.cache_type with
    | .redis =>
        if env.redis_fault then cm
        else { cm with redis_store := alInsert cm.redis_store key (value, ttl) }
    | .memory => { cm with memory_cache := alInsert cm.memory_cache key (value, now, ttl) }

/-- Whether a `set` in the given state actually writes: caching must be
enabled and the redis backend must not be faulting. -/
def CacheManager.setWrites (env : Env) (cm : CacheManager) : Bool :=
  env.CACHE_ENABLED &&
    (match cm.cache_type with
     | .redis => !env.redis_fault
     | .memory => true)

/-- `CacheManager.clear`.  The result type records that the operation
could raise; the source wraps both backends in `try/except` and prints
the failure, so the model always returns `ok` — a faulting redis
`flushdb` leaves the keyspace as it was. -/
def CacheManager.clear (env : Env) (cm : CacheManager) : Except String Unit × CacheManager :=
  match cm.cache_type with
  | .redis =>
      if env.redis_fault then (.ok (), cm)
      else (.ok (), { cm with redis_store := [] })
  | .memory => (.ok (), { cm with memory_cache := [] })

/-- `CacheManager.get_embedding_key`. -/
def CacheManager.get_embedding_key (env : Env) (text : String) : String :=
  "embed:" ++ CacheManager.hash_key [.str text, .str env.OPENAI_EMBED_MODEL]

/-- `CacheManager.get_retrieval_key`. -/
def CacheManager.get_retrieval_key (query : String) (k : Int) : String :=
  "retrieval:" ++ CacheManager.hash_key [.str query, .int k]

/-- `CacheManager.get_response_key`. -/
def CacheManager.get_response_key (env : Env) (question : String) (top_k : Int) : String :=
  "response:" ++ CacheManager.hash_key [.str question, .int top_k, .str env.OPENAI_MODEL]

/-! ### The three cache-fronted operations and the endpoints -/

/-- `embed`: get-before-compute, set-after-compute with a 24-hour ttl.
There is no per-request bypass parameter here — the source function takes
only `text`.  (The fallthrough arm also covers a stored value of the
wrong shape, which cannot arise from the modelled operations because every
`embed:` key only ever receives an embedding.) -/
def embed (env : Env) (cm : CacheManager) (now : Int) (text : String) :
    List Int × CacheManager :=
  let cache_key := CacheManager.get_embedding_key env text
  match CacheManager.get env cm now cache_key with
  | (some (.emb v), cm1) => (v, cm1)
  | (_, cm1) =>
      let e := env.embedApi text
      (e, CacheManager.set env cm1 now cache_key (.emb e) 86400)

/-- `retrieve`: the per-request `use_cache` flag guards both the lookup
and the store; the embedding of the query text goes through `embed`
(which has no such flag).  The fresh path zips the document and metadata
lists returned by the vector store and caches the pairs for six hours. -/
def retrieve (env : Env) (cm : CacheManager) (now : Int) (user_input : String) (k : Int)
    (use_cache : Bool) : List Chunk × CacheManager :=
  let cache_key := CacheManager.get_retrieval_key user_input k
  let hit := if use_cache then CacheManager.get env cm now cache_key else (none, cm)
  match hit with
  | (some (.retr r), cm1) => (r, cm1)
  | (_, cm1) =>
      let er := embed env cm1 now user_input
      let qr := env.vsQuery er.1 k
      let result := qr.1.zip qr.2
      let cm3 := if use_cache then CacheManager.set env er.2 now cache_key (.retr result) 21600
                 else er.2
      (result, cm3)

/-- The system prompt handed to the generation model (text braces written
as escapes). -/
def SYSTEM_PROMPT : String :=
  "\nVocê é um Query Builder SQL especializado em PostgreSQL. Use APENAS tabelas/colunas presentes no CONTEXTO RAG.\nGere SQL seguro e legível (CTEs quando útil).\n\nIMPORTANTE: Retorne APENAS um objeto JSON válido (sem markdown, sem \x60\x60\x60json).\n\nFormato obrigatório:\n\x7b\n  \"tables_used\": [],\n  \"columns_used\": [],\n  \"joins_explained\": [],\n  \"assumptions\": [],\n  \"sql\": \"...\"\n\x7d\n\nRegras:\n- Filtro padrão: últimos 90 dias e status COMPLETED quando o usuário não especificar.\n- Evite SELECT *.\n- Para datas use sales.created_at; para status use sales.sale_status_desc.\n- Para granularidade diária: DATE(sales.created_at) como sale_date.\n- Joins frequentes: sales→stores, sales→channels, sales→customers (LEFT), product_sales→sales, item_product_sales→product_sales, payments→payment_types.\n- Se faltar algo no contexto, explique em \"assumptions\".\n"

/-- `build_prompt_with_context`: numbered context blocks followed by the
user request. -/
def build_prompt_with_context (user_input : String) (contexts : List Chunk) : String :=
  let context_text := String.intercalate "\n\n"
    ((contexts.enum).map (fun p =>
      "[DOC " ++ toString (p.1 + 1) ++ " - " ++ p.2.2.source ++ "#chunk" ++
        toString p.2.2.chunk ++ "]\n" ++ p.2.1))
  let instruction := "Use APENAS o que está no contexto abaixo para escolher tabelas e colunas. Se algo não estiver claro, faça suposições em \x27assumptions\x27. Responda somente com o JSON no formato solicitado."
  instruction ++ "\n\n=== CONTEXTO RAG INÍCIO ===\n" ++ context_text ++
    "\n=== CONTEXTO RAG FIM ===\n\nSolicitação do usuário: " ++ user_input ++ "\n"

/-- The first line of `api_report`:
`k = req.top_k if req.top_k and req.top_k > 0 else TOP_K`.
A `None` or falsy (zero) or non-positive `top_k` yields the global
default; a positive one overrides it. -/
def effective_top_k (env : Env) (top_k : Option Int) : Int :=
  match top_k with
  | some v => if v ≠ 0 ∧ 0 < v then v else env.TOP_K
  | none => env.TOP_K

/-- The full-answer cache key probed and written by `api_report` for a
request. -/
def report_cache_key (env : Env) (req : AskRequest) : String :=
  CacheManager.get_response_key env req.question (effective_top_k env req.top_k)

/-- The fresh-compute path of `api_report` (the code after the early
return of a hit): retrieve contexts, build the prompt, call the
generation model, assemble the answer with `cached := false` and the
exact chunk count, and — when the per-request flag allows — store it
for one hour.  The ghost map records the chunk count exactly when the
store actually writes. -/
def report_compute (env : Env) (cm : CacheManager) (now : Int) (question : String)
    (k : Int) (use_cache : Bool) : AskResponse × CacheManager :=
  let cache_key := CacheManager.get_response_key env question k
  let res := retrieve env cm now question k use_cache
  let contexts := res.1
  let cm2 := res.2
  let prompt := build_prompt_with_context question contexts
  let data := env.llm SYSTEM_PROMPT prompt
  let response : AskResponse :=
    { tables_used := data.tables_used
      columns_used := data.columns_used
      joins_explained := data.joins_explained
      assumptions := data.assumptions
      sql := data.sql
      retrieved_chunks := contexts.length
      model_used := env.OPENAI_MODEL
      cached := false }
  let cm3 := if use_cache then CacheManager.set env cm2 now cache_key (.resp response) 3600
             else cm2
  let cm4 := if use_cache && CacheManager.setWrites env cm2 then
      { cm3 with ghost_chunks := alInsert cm3.ghost_chunks cache_key contexts.length }
    else cm3
  (response, cm4)

/-- The body of `api_report` after its first two lines, taking the
resolved result count `k` and the resolved `use_cache` flag.  On a
full-answer hit the returned copy gets `cached := true`; with the memory
backend that assignment mutates the stored entry through the shared
reference (see the file header), which the `alSetVal` branch performs.  A
stored value of the wrong shape at the response key falls through to the
compute path (unreachable from the modelled operations, which only ever
store answers under `response:` keys).  On a miss the request continues
with `report_compute`. -/
def api_report_core (env : Env) (cm : CacheManager) (now : Int) (question : String)
    (k : Int) (use_cache : Bool) : AskResponse × CacheManager :=
  let cache_key := CacheManager.get_response_key env question k
  let hit := if use_cache then CacheManager.get env cm now cache_key else (none, cm)
  match hit with
  | (some (.resp r), cm1) =>
      let response := { r with cached := true }
      let cm2 :=
        match cm1.cache_type with
        | .memory =>
            { cm1 with memory_cache := alSetVal cm1.memory_cache cache_key (.resp response) }
        | .redis => cm1
      (response, cm2)
  | (_, cm1) => report_compute env cm1 now question k use_cache

/-- The `/report` endpoint: resolve `k` and `use_cache`, then run the
body. -/
def api_report (env : Env) (cm : CacheManager) (now : Int) (req : AskRequest) :
    AskResponse × CacheManager :=
  api_report_core env cm now req.question (effective_top_k env req.top_k)
    (req.use_cache.getD true)

/-- The `/cache/clear` endpoint: call `CacheManager.clear`; an error would
be turned into an HTTP 500, but `clear` never raises. -/
def clear_cache (env : Env) (cm : CacheManager) :
    Except (Nat × String) String × CacheManager :=
  match CacheManager.clear env cm with
  | (.ok _, cm1) => (.ok "Cache cleared successfully", cm1)
  | (.error e, cm1) => (.error (500, e), cm1)

/-! ### Specification-side quantities for the chunk-count claim -/

/-- The provenance flag of the full-answer record held in memory-backend
storage under `key`, if one is there. -/
def storedRespFlag (cm : CacheManager) (key : String) : Option Bool :=
  match alLookup cm.memory_cache key with
  | some (.resp r, _, _) => some r.cached
  | _ => none

/-- The actual number of context chunks behind the answer a `/report`
request returns: on a full-answer hit, the count recorded when the stored
answer was computed (read from the ghost map); otherwise the length of
the context list retrieved by this very request. -/
def report_chunks_used (env : Env) (cm : CacheManager) (now : Int) (req : AskRequest) : Nat :=
  let k := effective_top_k env req.top_k
  let use_cache := req.use_cache.getD true
  let cache_key := report_cache_key env req
  let hit := if use_cache then CacheManager.get env cm now cache_key else (none, cm)
  match hit with
  | (some (.resp _), _) => (alLookup cm.ghost_chunks cache_key).getD 0
  | (_, cm1) => (retrieve env cm1 now req.question k use_cache).1.length

/-- One memory-backend entry is chunk-count-consistent with the ghost map:
a stored full answer carries the context count recorded for its key. -/
def entryOkM (ghost : List (String × Nat)) (p : String × MemEntry) : Bool :=
  match p.2.1 with
  | .resp r => alLookup ghost p.1 == some r.retrieved_chunks
  | _ => true

/-- The redis-side analogue of `entryOkM`. -/
def entryOkR (ghost : List (String × Nat)) (p : String × CacheVal × Int) : Bool :=
  match p.2.1 with
  | .resp r => alLookup ghost p.1 == some r.retrieved_chunks
  | _ => true

/-- The chunk-count bookkeeping invariant: every full-answer record held
in the active store carries as `retrieved_chunks` exactly the context
count recorded for its key when it was computed. -/
def CacheManager.respInv (cm : CacheManager) : Bool :=
  match cm.cache_type with
  | .memory => cm.memory_cache.all (entryOkM cm.ghost_chunks)
  | .redis => cm.redis_store.all (entryOkR cm.ghost_chunks)

/-! ### Concrete fixtures for witnesses and counterexamples -/

/-- A concrete configuration: memory backend semantics, caching enabled,
default model names and `TOP_K`, and small deterministic oracles. -/
def env0 : Env where
  OPENAI_MODEL := "gpt-4-turbo-preview"
  OPENAI_EMBED_MODEL := "text-embedding-3-small"
  TOP_K := 6
  CACHE_ENABLED := true
  redis_fault := false
  embedApi := fun t => [Int.ofNat t.length, 7]
  vsQuery := fun _ _ => (["chunk A", "chunk B"], [⟨"doc1.md", 0⟩, ⟨"doc1.md", 1⟩])
  llm := fun _ _ => ⟨["sales"], ["sales.id"], [], [], "SELECT 1"⟩

/-- The same configuration with the global cache switch off. -/
def env_off : Env := { env0 with CACHE_ENABLED := false }

/-- The same configuration with a redis client that raises on every
operation. -/
def env_fault : Env := { env0 with redis_fault := true }

/-- A fresh memory-backend cache manager. -/
def cm0 : CacheManager := ⟨.memory, [], [], []⟩

/-- A redis-backend cache manager holding one previously written entry. -/
def cm_redis1 : CacheManager := ⟨.redis, [], [("k1", .emb [3], 60)], []⟩

/-- A memory-backend cache manager holding one entry stored at time 0
with a ttl of 10 seconds. -/
def cm_mem1 : CacheManager := ⟨.memory, [("k1", .emb [3], 0, 10)], [], []⟩

/-- A plain request: default `top_k`, default `use_cache`. -/
def req0 : AskRequest := ⟨"list sales", none, none⟩

/-- The same question with the per-request cache bypass. -/
def req_nc : AskRequest := ⟨"list sales", none, some false⟩

/-! ### Sanity anchors for the SHA-256 embedding (FIPS 180-4 test vectors) -/

example : sha256hex "abc" =
    "ba7816bf8f01cfea414140de5dae2223b00361a396177a9cb410ff61f20015ad" := by decide

example : sha256hex "" =
    "e3b0c44298fc1c149afbf4c8996fb92427ae41e4649b934ca495991b7852b855" := by decide

/-! ### Association-list lemmas -/

theorem alLookup_alErase_ne {α : Type} (l : List (String × α)) (k k' : String) (h : k' ≠ k) :
    alLookup (alErase l k) k' = alLookup l k' := by
  induction l with
  | nil => rfl
  | cons a t ih =>
      by_cases ha : a.1 = k
      · simp [alErase, alLookup, List.filter_cons, ha, List.find?_cons, Ne.symm h] at ih ⊢
        simpa [alErase, alLookup] using ih
      · by_cases ha' : a.1 = k'
        · simp [alErase, alLookup, List.filter_cons, ha, List.find?_cons, ha', h]
        · simp [alErase, alLookup, List.filter_cons, ha, List.find?_cons, ha'] at ih ⊢
          simpa [alErase, alLookup] using ih

theorem alLookup_alErase_self {α : Type} (l : List (String × α)) (k : String) :
    alLookup (alErase l k) k = none := by
  unfold alLookup alErase
  rw [List.find?_eq_none.mpr]
  · rfl
  · intro p hp
    have := List.of_mem_filter hp
    simpa using this

theorem alLookup_alInsert_self {α : Type} (l : List (String × α)) (k : String) (v : α) :
    alLookup (alInsert l k v) k = some v := by
  simp [alLookup, alInsert, List.find?_cons]

theorem alLookup_alInsert_ne {α : Type} (l : List (String × α)) (k k' : String) (v : α)
    (h : k' ≠ k) : alLookup (alInsert l k v) k' = alLookup l k' := by
  have step : alLookup (alInsert l k v) k' = alLookup (alErase l k) k' := by
    simp [alLookup, alInsert, List.find?_cons, Ne.symm h]
  rw [step, alLookup_alErase_ne l k k' h]

theorem alLookup_alSetVal_ne (l : List (String × MemEntry)) (k k' : String) (v : CacheVal)
    (h : k' ≠ k) : alLookup (alSetVal l k v) k' = alLookup l k' := by
  induction l with
  | nil => rfl
  | cons a t ih =>
      by_cases ha : a.1 = k
      · simp [alSetVal, alLookup, List.find?_cons, ha, Ne.symm h] at ih ⊢
        simpa [alSetVal, alLookup] using ih
      · by_cases ha' : a.1 = k'
        · simp [alSetVal, alLookup, List.find?_cons, ha, ha', h]
        · simp [alSetVal, alLookup, List.find?_cons, ha, ha'] at ih ⊢
          simpa [alSetVal, alLookup] using ih

theorem alLookup_alSetVal_self (l : List (String × MemEntry)) (k : String) (v : CacheVal)
    (e : MemEntry) (h : alLookup l k = some e) :
    alLookup (alSetVal l k v) k = some (v, e.2.1, e.2.2) := by
  induction l with
  | nil => simp [alLookup] at h
  | cons a t ih =>
      by_cases ha : a.1 = k
      · simp [alLookup, List.find?_cons, ha] at h
        simp [alSetVal, alLookup, List.find?_cons, ha, ← h]
      · have hstep : alLookup (a :: t) k = alLookup t k := by
          simp [alLookup, List.find?_cons, ha]
        rw [hstep] at h
        have hgoal : alLookup (alSetVal (a :: t) k v) k = alLookup (alSetVal t k v) k := by
          simp [alSetVal, alLookup, List.find?_cons, ha]
        rw [hgoal]
        exact ih h

theorem all_alErase {α : Type} (l : List (String × α)) (p : String × α → Bool) (k : String)
    (h : l.all p = true) : (alErase l k).all p = true := by
  rw [List.all_eq_true] at h ⊢
  intro x hx
  exact h x (List.mem_of_mem_filter hx)

theorem all_alInsert {α : Type} (l : List (String × α)) (p : String × α → Bool) (k : String)
    (v : α) (hv : p (k, v) = true) (h : l.all p = true) : (alInsert l k v).all p = true := by
  rw [List.all_eq_true] at h ⊢
  intro x hx
  rcases List.mem_cons.mp hx with hx | hx
  · simpa [hx] using hv
  · exact h x (List.mem_of_mem_filter hx)

theorem all_of_find? {α : Type} (l : List α) (q : α → Bool) (p : α → Bool) (x : α)
    (hf : l.find? q = some x) (h : l.all p = true) : p x = true :=
  List.all_eq_true.mp h x (List.mem_of_find?_eq_some hf)

theorem all_alSetVal (l : List (String × MemEntry)) (p p' : String × MemEntry → Bool)
    (k : String) (v : CacheVal)
    (hmut : ∀ x : String × MemEntry, x.1 = k → p' (x.1, v, x.2.2.1, x.2.2.2) = true)
    (hkeep : ∀ x : String × MemEntry, p x = true → p' x = true)
    (h : l.all p = true) : (alSetVal l k v).all p' = true := by
  rw [List.all_eq_true] at h ⊢
  intro x hx
  rcases List.mem_map.mp hx with ⟨y, hy, hxy⟩
  by_cases hyk : y.1 = k
  · have hxval : x = (y.1, v, y.2.2.1, y.2.2.2) := by simp [← hxy, hyk]
    rw [hxval]
    exact hmut y hyk
  · have hxval : x = y := by simp [← hxy, hyk]
    rw [hxval]
    exact hkeep y (h y hy)

/-! ### Structural lemmas about the cache operations -/

theorem get_off (env : Env) (cm : CacheManager) (now : Int) (key : String)
    (he : env.CACHE_ENABLED = false) : CacheManager.get env cm now key = (none, cm) := by
  unfold CacheManager.get
  rw [if_pos he]

theorem set_off (env : Env) (cm : CacheManager) (now : Int) (key : String) (value : CacheVal)
    (ttl : Int) (he : env.CACHE_ENABLED = false) :
    CacheManager.set env cm now key value ttl = cm := by
  unfold CacheManager.set
  rw [if_pos he]

theorem get_frame (env : Env) (cm : CacheManager) (now : Int) (key : String) :
    (CacheManager.get env cm now key).2.cache_type = cm.cache_type
    ∧ (CacheManager.get env cm now key).2.ghost_chunks = cm.ghost_chunks
    ∧ (CacheManager.get env cm now key).2.redis_store = cm.redis_store
    ∧ ∀ k', k' ≠ key →
        alLookup (CacheManager.get env cm now key).2.memory_cache k'
          = alLookup cm.memory_cache k' := by
  by_cases he : env.CACHE_ENABLED = false
  · simp [CacheManager.get, he]
  · cases hct : cm.cache_type with
    | redis => by_cases hf : env.redis_fault <;> simp [CacheManager.get, he, hct, hf]
    | memory =>
        cases hl : alLookup cm.memory_cache key with
        | none => simp [CacheManager.get, he, hct, hl]
        | some e =>
            rcases e with ⟨v, ts, ttl⟩
            by_cases hfresh : now - ts < ttl
            · simp [CacheManager.get, he, hct, hl, hfresh]
            · simp only [CacheManager.get, he, hct, hl, hfresh]
              refine ⟨rfl, rfl, rfl, ?_⟩
              intro k' hk'
              exact alLookup_alErase_ne cm.memory_cache key k' hk'

theorem set_frame (env : Env) (cm : CacheManager) (now : Int) (key : String) (value : CacheVal)
    (ttl : Int) :
    (CacheManager.set env cm now key value ttl).cache_type = cm.cache_type
    ∧ (CacheManager.set env cm now key value ttl).ghost_chunks = cm.ghost_chunks
    ∧ ∀ k', k' ≠ key →
        alLookup (CacheManager.set env cm now key value ttl).memory_cache k'
          = alLookup cm.memory_cache k'
        ∧ alLookup (CacheManager.set env cm now key value ttl).redis_store k'
          = alLookup cm.redis_store k' := by
  by_cases he : env.CACHE_ENABLED = false
  · simp [CacheManager.set, he]
  · cases hct : cm.cache_type with
    | redis =>
        by_cases hf : env.redis_fault
        · simp [CacheManager.set, he, hct, hf]
        · simp only [CacheManager.set, he, hct, hf]
          refine ⟨by simp, by simp, ?_⟩
          intro k' hk'
          exact ⟨by simp, by simpa using alLookup_alInsert_ne cm.redis_store key k' (value, ttl) hk'⟩
    | memory =>
        simp only [CacheManager.set, he, hct]
        refine ⟨by simp, by simp, ?_⟩
        intro k' hk'
        exact ⟨by simpa using alLookup_alInsert_ne cm.memory_cache key k' (value, now, ttl) hk',
               by simp⟩

theorem embed_frame (env : Env) (cm : CacheManager) (now : Int) (text : String) :
    (embed env cm now text).2.cache_type = cm.cache_type
    ∧ (embed env cm now text).2.ghost_chunks = cm.ghost_chunks
    ∧ ∀ k', k' ≠ CacheManager.get_embedding_key env text →
        alLookup (embed env cm now text).2.memory_cache k' = alLookup cm.memory_cache k'
        ∧ alLookup (embed env cm now text).2.redis_store k' = alLookup cm.redis_store k' := by
  rcases hE : CacheManager.get env cm now (CacheManager.get_embedding_key env text) with ⟨v, cm1⟩
  have hg := get_frame env cm now (CacheManager.get_embedding_key env text)
  rw [hE] at hg
  have hkey : ∀ k', k' ≠ CacheManager.get_embedding_key env text →
      alLookup cm1.memory_cache k' = alLookup cm.memory_cache k'
      ∧ alLookup cm1.redis_store k' = alLookup cm.redis_store k' := by
    intro k' hk'
    exact ⟨hg.2.2.2 k' hk', by rw [hg.2.2.1]⟩
  have hmiss : ∀ e : List Int,
      (CacheManager.set env cm1 now (CacheManager.get_embedding_key env text) (.emb e)
        86400).cache_type = cm.cache_type
      ∧ (CacheManager.set env cm1 now (CacheManager.get_embedding_key env text) (.emb e)
          86400).ghost_chunks = cm.ghost_chunks
      ∧ ∀ k', k' ≠ CacheManager.get_embedding_key env text →
          alLookup (CacheManager.set env cm1 now (CacheManager.get_embedding_key env text)
            (.emb e) 86400).memory_cache k' = alLookup cm.memory_cache k'
          ∧ alLookup (CacheManager.set env cm1 now (CacheManager.get_embedding_key env text)
              (.emb e) 86400).redis_store k' = alLookup cm.redis_store k' := by
    intro e
    have hs := set_frame env cm1 now (CacheManager.get_embedding_key env text) (.emb e) 86400
    refine ⟨by rw [hs.1, hg.1], by rw [hs.2.1, hg.2.1], ?_⟩
    intro k' hk'
    exact ⟨by rw [(hs.2.2 k' hk').1, (hkey k' hk').1],
           by rw [(hs.2.2 k' hk').2, (hkey k' hk').2]⟩
  cases v with
  | none => simpa [embed, hE] using hmiss (env.embedApi text)
  | some vv =>
      cases vv with
      | emb e => simpa [embed, hE] using ⟨hg.1, hg.2.1, hkey⟩
      | retr r => simpa [embed, hE] using hmiss (env.embedApi text)
      | resp r => simpa [embed, hE] using hmiss (env.embedApi text)

theorem embed_miss_write (env : Env) (cm : CacheManager) (now : Int) (text : String)
    (hen : env.CACHE_ENABLED = true) (hct : cm.cache_type = .memory)
    (hl : alLookup cm.memory_cache (CacheManager.get_embedding_key env text) = none) :
    alLookup (embed env cm now text).2.memory_cache (CacheManager.get_embedding_key env text)
      = some (.emb (env.embedApi text), now, 86400) := by
  have hE : CacheManager.get env cm now (CacheManager.get_embedding_key env text)
      = (none, cm) := by
    simp [CacheManager.get, hen, hct, hl]
  have hset : (CacheManager.set env cm now (CacheManager.get_embedding_key env text)
        (.emb (env.embedApi text)) 86400).memory_cache
      = alInsert cm.memory_cache (CacheManager.get_embedding_key env text)
          (CacheVal.emb (env.embedApi text), now, 86400) := by
    simp [CacheManager.set, hen, hct]
  simp only [embed, hE, hset]
  exact alLookup_alInsert_self cm.memory_cache (CacheManager.get_embedding_key env text) _

theorem mem_get_hit (env : Env) (cm : CacheManager) (now : Int) (key : String) (v : CacheVal)
    (hen : env.CACHE_ENABLED = true) (hct : cm.cache_type = .memory)
    (h : (CacheManager.get env cm now key).1 = some v) :
    (CacheManager.get env cm now key).2 = cm
    ∧ ∃ ts ttl, alLookup cm.memory_cache key = some (v, ts, ttl) ∧ now - ts < ttl := by
  cases hl : alLookup cm.memory_cache key with
  | none => simp [CacheManager.get, hen, hct, hl] at h
  | some e =>
      rcases e with ⟨vv, ts, ttl⟩
      by_cases hfresh : now - ts < ttl
      · have hv : vv = v := by simpa [CacheManager.get, hen, hct, hl, hfresh] using h
        subst hv
        exact ⟨by simp [CacheManager.get, hen, hct, hl, hfresh], ts, ttl, rfl, hfresh⟩
      · simp [CacheManager.get, hen, hct, hl, hfresh] at h

theorem redis_get_state (env : Env) (cm : CacheManager) (now : Int) (key : String)
    (hct : cm.cache_type = .redis) : (CacheManager.get env cm now key).2 = cm := by
  by_cases he : env.CACHE_ENABLED = false
  · simp [CacheManager.get, he]
  · by_cases hf : env.redis_fault <;> simp [CacheManager.get, he, hct, hf]

theorem redis_get_some (env : Env) (cm : CacheManager) (now : Int) (key : String) (v : CacheVal)
    (hct : cm.cache_type = .redis)
    (h : (CacheManager.get env cm now key).1 = some v) :
    ∃ tl, alLookup cm.redis_store key = some (v, tl) := by
  by_cases he : env.CACHE_ENABLED = false
  · simp [CacheManager.get, he] at h
  · by_cases hf : env.redis_fault
    · simp [CacheManager.get, he, hct, hf] at h
    · cases hl : alLookup cm.redis_store key with
      | none => simp [CacheManager.get, he, hct, hf, hl] at h
      | some p =>
          rcases p with ⟨vv, tl⟩
          have hvv : vv = v := by simpa [CacheManager.get, he, hct, hf, hl] using h
          subst hvv
          exact ⟨tl, rfl⟩

theorem set_noop_of_not_writes (env : Env) (cm : CacheManager) (now : Int) (key : String)
    (value : CacheVal) (ttl : Int) (hw : CacheManager.setWrites env cm = false) :
    CacheManager.set env cm now key value ttl = cm := by
  by_cases he : env.CACHE_ENABLED = false
  · exact set_off env cm now key value ttl he
  · have he' : env.CACHE_ENABLED = true := by
      cases henb : env.CACHE_ENABLED
      · exact absurd henb he
      · rfl
    unfold CacheManager.setWrites at hw
    cases hct : cm.cache_type with
    | memory => rw [he', hct] at hw; simp at hw
    | redis =>
        rw [he', hct] at hw
        simp at hw
        simp [CacheManager.set, he, hct, hw]

/-! ### Preservation of the chunk-count invariant -/

theorem entryOkM_ghost_ne (ghost : List (String × Nat)) (key : String) (n : Nat)
    (x : String × MemEntry) (hx : x.1 ≠ key) (h : entryOkM ghost x = true) :
    entryOkM (alInsert ghost key n) x = true := by
  unfold entryOkM at h ⊢
  rw [alLookup_alInsert_ne ghost key x.1 n hx]
  exact h

theorem entryOkR_ghost_ne (ghost : List (String × Nat)) (key : String) (n : Nat)
    (x : String × CacheVal × Int) (hx : x.1 ≠ key) (h : entryOkR ghost x = true) :
    entryOkR (alInsert ghost key n) x = true := by
  unfold entryOkR at h ⊢
  rw [alLookup_alInsert_ne ghost key x.1 n hx]
  exact h

theorem respInv_memory (cm : CacheManager) (hct : cm.cache_type = .memory) :
    cm.respInv = cm.memory_cache.all (entryOkM cm.ghost_chunks) := by
  unfold CacheManager.respInv
  rw [hct]

theorem respInv_redis (cm : CacheManager) (hct : cm.cache_type = .redis) :
    cm.respInv = cm.redis_store.all (entryOkR cm.ghost_chunks) := by
  unfold CacheManager.respInv
  rw [hct]

theorem ghost_of_mem_lookup (cm : CacheManager) (key : String) (r : AskResponse) (ts ttl : Int)
    (hct : cm.cache_type = .memory) (hinv : cm.respInv = true)
    (hl : alLookup cm.memory_cache key = some (.resp r, ts, ttl)) :
    alLookup cm.ghost_chunks key = some r.retrieved_chunks := by
  rw [respInv_memory cm hct] at hinv
  unfold alLookup at hl
  rcases Option.map_eq_some'.mp hl with ⟨x, hfind, hx2⟩
  have hp := all_of_find? cm.memory_cache _ (entryOkM cm.ghost_chunks) x hfind hinv
  have hx1 : x.1 = key := by
    have := List.find?_some hfind
    simpa using this
  unfold entryOkM at hp
  rw [hx2] at hp
  rw [← hx1]
  simpa using hp

theorem ghost_of_redis_lookup (cm : CacheManager) (key : String) (r : AskResponse) (tl : Int)
    (hct : cm.cache_type = .redis) (hinv : cm.respInv = true)
    (hl : alLookup cm.redis_store key = some (.resp r, tl)) :
    alLookup cm.ghost_chunks key = some r.retrieved_chunks := by
  rw [respInv_redis cm hct] at hinv
  unfold alLookup at hl
  rcases Option.map_eq_some'.mp hl with ⟨x, hfind, hx2⟩
  have hp := all_of_find? cm.redis_store _ (entryOkR cm.ghost_chunks) x hfind hinv
  have hx1 : x.1 = key := by
    have := List.find?_some hfind
    simpa using this
  unfold entryOkR at hp
  rw [hx2] at hp
  rw [← hx1]
  simpa using hp

theorem respInv_get (env : Env) (cm : CacheManager) (now : Int) (key : String)
    (h : cm.respInv = true) : ((CacheManager.get env cm now key).2).respInv = true := by
  by_cases he : env.CACHE_ENABLED = false
  · simpa [CacheManager.get, he] using h
  · cases hct : cm.cache_type with
    | redis => by_cases hf : env.redis_fault <;> simpa [CacheManager.get, he, hct, hf] using h
    | memory =>
        cases hl : alLookup cm.memory_cache key with
        | none => simpa [CacheManager.get, he, hct, hl] using h
        | some e =>
            rcases e with ⟨v, ts, ttl⟩
            by_cases hfresh : now - ts < ttl
            · simpa [CacheManager.get, he, hct, hl, hfresh] using h
            · have hstate : CacheManager.get env cm now key
                  = (none, { cm with memory_cache := alErase cm.memory_cache key }) := by
                simp [CacheManager.get, he, hct, hl, hfresh]
              rw [respInv_memory cm hct] at h
              have hgoal := all_alErase cm.memory_cache (entryOkM cm.ghost_chunks) key h
              rw [hstate, respInv_memory { cm with memory_cache := alErase cm.memory_cache key }
                (by simpa using hct)]
              simpa using hgoal

theorem respInv_set_nonresp (env : Env) (cm : CacheManager) (now : Int) (key : String)
    (value : CacheVal) (ttl : Int) (hv : value.isResp = false)
    (h : cm.respInv = true) :
    (CacheManager.set env cm now key value ttl).respInv = true := by
  by_cases he : env.CACHE_ENABLED = false
  · simpa [CacheManager.set, he] using h
  · cases hct : cm.cache_type with
    | redis =>
        by_cases hf : env.redis_fault
        · simpa [CacheManager.set, he, hct, hf] using h
        · have hstate : CacheManager.set env cm now key value ttl
              = { cm with redis_store := alInsert cm.redis_store key (value, ttl) } := by
            simp [CacheManager.set, he, hct, hf]
          rw [hstate,
            respInv_redis { cm with redis_store := alInsert cm.redis_store key (value, ttl) }
              (by simpa using hct)]
          apply all_alInsert
          · cases value with
            | emb e => simp [entryOkR]
            | retr r => simp [entryOkR]
            | resp r => simp [CacheVal.isResp] at hv
          · rw [respInv_redis cm hct] at h
            exact h
    | memory =>
        have hstate : CacheManager.set env cm now key value ttl
            = { cm with memory_cache := alInsert cm.memory_cache key (value, now, ttl) } := by
          simp [CacheManager.set, he, hct]
        rw [hstate, respInv_memory
          { cm with memory_cache := alInsert cm.memory_cache key (value, now, ttl) }
          (by simpa using hct)]
        apply all_alInsert
        · cases value with
          | emb e => simp [entryOkM]
          | retr r => simp [entryOkM]
          | resp r => simp [CacheVal.isResp] at hv
        · rw [respInv_memory cm hct] at h
          exact h

theorem respInv_embed (env : Env) (cm : CacheManager) (now : Int) (text : String)
    (h : cm.respInv = true) : ((embed env cm now text).2).respInv = true := by
  rcases hE : CacheManager.get env cm now (CacheManager.get_embedding_key env text) with ⟨v, cm1⟩
  have h1 : cm1.respInv = true := by
    have := respInv_get env cm now (CacheManager.get_embedding_key env text) h
    rwa [hE] at this
  cases v with
  | none =>
      simpa [embed, hE] using
        respInv_set_nonresp env cm1 now _ (.emb (env.embedApi text)) 86400 rfl h1
  | some vv =>
      cases vv with
      | emb e => simpa [embed, hE] using h1
      | retr r =>
          simpa [embed, hE] using
            respInv_set_nonresp env cm1 now _ (.emb (env.embedApi text)) 86400 rfl h1
      | resp r =>
          simpa [embed, hE] using
            respInv_set_nonresp env cm1 now _ (.emb (env.embedApi text)) 86400 rfl h1

theorem respInv_retrieve (env : Env) (cm : CacheManager) (now : Int) (q : String) (k : Int)
    (uc : Bool) (h : cm.respInv = true) :
    ((retrieve env cm now q k uc).2).respInv = true := by
  cases uc with
  | false =>
      simpa [retrieve] using respInv_embed env cm now q h
  | true =>
      rcases hE : CacheManager.get env cm now (CacheManager.get_retrieval_key q k) with ⟨v, cm1⟩
      have h1 : cm1.respInv = true := by
        have := respInv_get env cm now (CacheManager.get_retrieval_key q k) h
        rwa [hE] at this
      have hmiss : ∀ s : CacheManager, s.respInv = true →
          ((CacheManager.set env s now (CacheManager.get_retrieval_key q k)
            (.retr ((env.vsQuery (embed env cm1 now q).1 k).1.zip
              (env.vsQuery (embed env cm1 now q).1 k).2)) 21600)).respInv = true := by
        intro s hs
        exact respInv_set_nonresp env s now _ _ 21600 rfl hs
      cases v with
      | none =>
          simpa [retrieve, hE] using
            hmiss (embed env cm1 now q).2 (respInv_embed env cm1 now q h1)
      | some vv =>
          cases vv with
          | retr r => simpa [retrieve, hE] using h1
          | emb e =>
              simpa [retrieve, hE] using
                hmiss (embed env cm1 now q).2 (respInv_embed env cm1 now q h1)
          | resp r =>
              simpa [retrieve, hE] using
                hmiss (embed env cm1 now q).2 (respInv_embed env cm1 now q h1)

theorem respInv_mutate (cm : CacheManager) (key : String) (r : AskResponse) (ts ttl : Int)
    (hct : cm.cache_type = .memory)
    (hl : alLookup cm.memory_cache key = some (.resp r, ts, ttl))
    (hinv : cm.respInv = true) :
    ({ cm with memory_cache :=
        alSetVal cm.memory_cache key (.resp { r with cached := true }) }).respInv = true := by
  have hg : alLookup cm.ghost_chunks key = some r.retrieved_chunks :=
    ghost_of_mem_lookup cm key r ts ttl hct hinv hl
  rw [respInv_memory
    { cm with memory_cache := alSetVal cm.memory_cache key (.resp { r with cached := true }) }
    (by simpa using hct)]
  apply all_alSetVal cm.memory_cache (entryOkM cm.ghost_chunks) (entryOkM cm.ghost_chunks)
  · intro x hx
    have hred : entryOkM cm.ghost_chunks
          (x.1, CacheVal.resp { r with cached := true }, x.2.2.1, x.2.2.2)
        = (alLookup cm.ghost_chunks x.1 == some r.retrieved_chunks) := rfl
    rw [hred, hx, hg]
    simp
  · intro x hx
    exact hx
  · rw [respInv_memory cm hct] at hinv
    exact hinv

theorem respInv_store_resp (env : Env) (s : CacheManager) (now : Int) (key : String)
    (resp : AskResponse) (n : Nat) (hn : resp.retrieved_chunks = n)
    (hinv : s.respInv = true) :
    (if CacheManager.setWrites env s then
      { CacheManager.set env s now key (.resp resp) 3600 with
        ghost_chunks :=
          alInsert (CacheManager.set env s now key (.resp resp) 3600).ghost_chunks key n }
     else CacheManager.set env s now key (.resp resp) 3600).respInv = true := by
  cases hw : CacheManager.setWrites env s with
  | false =>
      rw [if_neg (by simp : ¬ (false = true)),
        set_noop_of_not_writes env s now key (.resp resp) 3600 hw]
      exact hinv
  | true =>
      rw [if_pos (rfl : true = true)]
      have he : env.CACHE_ENABLED = true := by
        unfold CacheManager.setWrites at hw
        cases henb : env.CACHE_ENABLED
        · rw [henb] at hw; simp at hw
        · rfl
      have he' : ¬ env.CACHE_ENABLED = false := by rw [he]; simp
      cases hct : s.cache_type with
      | memory =>
          have hset : CacheManager.set env s now key (.resp resp) 3600
              = { s with memory_cache := alInsert s.memory_cache key (.resp resp, now, 3600) } := by
            simp [CacheManager.set, he', hct]
          rw [hset]
          rw [respInv_memory _ (by simpa using hct)]
          simp only []
          rw [List.all_eq_true]
          intro x hx
          rcases List.mem_cons.mp hx with hx | hx
          · rw [hx]
            unfold entryOkM
            simp only []
            rw [alLookup_alInsert_self]
            simp [hn]
          · have hxne : x.1 ≠ key := by
              have := List.of_mem_filter hx
              simpa using this
            have hxmem : x ∈ s.memory_cache := List.mem_of_mem_filter hx
            have hxok : entryOkM s.ghost_chunks x = true := by
              rw [respInv_memory s hct] at hinv
              exact List.all_eq_true.mp hinv x hxmem
            exact entryOkM_ghost_ne s.ghost_chunks key n x hxne hxok
      | redis =>
          have hf : env.redis_fault = false := by
            unfold CacheManager.setWrites at hw
            rw [he, hct] at hw
            simpa using hw
          have hset : CacheManager.set env s now key (.resp resp) 3600
              = { s with redis_store := alInsert s.redis_store key (.resp resp, 3600) } := by
            simp [CacheManager.set, he', hct, hf]
          rw [hset]
          rw [respInv_redis _ (by simpa using hct)]
          simp only []
          rw [List.all_eq_true]
          intro x hx
          rcases List.mem_cons.mp hx with hx | hx
          · rw [hx]
            unfold entryOkR
            simp only []
            rw [alLookup_alInsert_self]
            simp [hn]
          · have hxne : x.1 ≠ key := by
              have := List.of_mem_filter hx
              simpa using this
            have hxmem : x ∈ s.redis_store := List.mem_of_mem_filter hx
            have hxok : entryOkR s.ghost_chunks x = true := by
              rw [respInv_redis s hct] at hinv
              exact List.all_eq_true.mp hinv x hxmem
            exact entryOkR_ghost_ne s.ghost_chunks key n x hxne hxok

/-! ### Shape lemmas for the report pipeline -/

theorem cache_type_retrieve (env : Env) (cm : CacheManager) (now : Int) (q : String) (k : Int)
    (uc : Bool) : (retrieve env cm now q k uc).2.cache_type = cm.cache_type := by
  cases uc with
  | false => simpa [retrieve] using (embed_frame env cm now q).1
  | true =>
      rcases hE : CacheManager.get env cm now (CacheManager.get_retrieval_key q k) with ⟨v, cm1⟩
      have h1 : cm1.cache_type = cm.cache_type := by
        have hfr := (get_frame env cm now (CacheManager.get_retrieval_key q k)).1
        rwa [hE] at hfr
      have hmiss : (CacheManager.set env (embed env cm1 now q).2 now
          (CacheManager.get_retrieval_key q k)
          (.retr ((env.vsQuery (embed env cm1 now q).1 k).1.zip
            (env.vsQuery (embed env cm1 now q).1 k).2)) 21600).cache_type = cm.cache_type := by
        rw [(set_frame env (embed env cm1 now q).2 now _ _ 21600).1,
          (embed_frame env cm1 now q).1, h1]
      cases v with
      | none => simpa [retrieve, hE] using hmiss
      | some vv =>
          cases vv with
          | retr r => simpa [retrieve, hE] using h1
          | emb e => simpa [retrieve, hE] using hmiss
          | resp r => simpa [retrieve, hE] using hmiss

theorem retrieve_uc_false (env : Env) (cm : CacheManager) (now : Int) (q : String) (k : Int) :
    retrieve env cm now q k false
      = ((env.vsQuery (embed env cm now q).1 k).1.zip (env.vsQuery (embed env cm now q).1 k).2,
         (embed env cm now q).2) := by
  simp [retrieve]

theorem report_compute_resp (env : Env) (cm : CacheManager) (now : Int) (q : String) (k : Int)
    (uc : Bool) :
    (report_compute env cm now q k uc).1.cached = false
    ∧ (report_compute env cm now q k uc).1.retrieved_chunks
        = (retrieve env cm now q k uc).1.length :=
  ⟨rfl, rfl⟩

theorem report_compute_state_uc_false (env : Env) (cm : CacheManager) (now : Int) (q : String)
    (k : Int) :
    (report_compute env cm now q k false).2 = (retrieve env cm now q k false).2 := by
  simp [report_compute]

theorem report_compute_state (env : Env) (cm : CacheManager) (now : Int) (q : String)
    (k : Int) :
    (report_compute env cm now q k true).2
      = (if CacheManager.setWrites env (retrieve env cm now q k true).2 then
          { CacheManager.set env (retrieve env cm now q k true).2 now
              (CacheManager.get_response_key env q k)
              (.resp (report_compute env cm now q k true).1) 3600 with
            ghost_chunks :=
              alInsert (CacheManager.set env (retrieve env cm now q k true).2 now
                (CacheManager.get_response_key env q k)
                (.resp (report_compute env cm now q k true).1) 3600).ghost_chunks
                (CacheManager.get_response_key env q k)
                (retrieve env cm now q k true).1.length }
         else CacheManager.set env (retrieve env cm now q k true).2 now
            (CacheManager.get_response_key env q k)
            (.resp (report_compute env cm now q k true).1) 3600) := rfl

theorem respInv_report_compute (env : Env) (cm : CacheManager) (now : Int) (q : String)
    (k : Int) (uc : Bool) (h : cm.respInv = true) :
    ((report_compute env cm now q k uc).2).respInv = true := by
  have h2 : ((retrieve env cm now q k uc).2).respInv = true :=
    respInv_retrieve env cm now q k uc h
  cases uc with
  | false => rw [report_compute_state_uc_false]; exact h2
  | true =>
      rw [report_compute_state]
      exact respInv_store_resp env (retrieve env cm now q k true).2 now
        (CacheManager.get_response_key env q k) (report_compute env cm now q k true).1
        (retrieve env cm now q k true).1.length rfl h2

theorem report_compute_stores (env : Env) (cm : CacheManager) (now : Int) (q : String)
    (k : Int) (hen : env.CACHE_ENABLED = true) (hct : cm.cache_type = .memory) :
    alLookup (report_compute env cm now q k true).2.memory_cache
        (CacheManager.get_response_key env q k)
      = some (.resp (report_compute env cm now q k true).1, now, 3600) := by
  have hct2 : (retrieve env cm now q k true).2.cache_type = CacheType.memory := by
    rw [cache_type_retrieve]
    exact hct
  have hsetmem : (CacheManager.set env (retrieve env cm now q k true).2 now
      (CacheManager.get_response_key env q k)
      (.resp (report_compute env cm now q k true).1) 3600).memory_cache
      = alInsert (retrieve env cm now q k true).2.memory_cache
          (CacheManager.get_response_key env q k)
          (CacheVal.resp (report_compute env cm now q k true).1, now, 3600) := by
    simp [CacheManager.set, hen, hct2]
  have hmem : (report_compute env cm now q k true).2.memory_cache
      = alInsert (retrieve env cm now q k true).2.memory_cache
          (CacheManager.get_response_key env q k)
          (CacheVal.resp (report_compute env cm now q k true).1, now, 3600) := by
    rw [report_compute_state]
    split
    · exact hsetmem
    · exact hsetmem
  rw [hmem]
  exact alLookup_alInsert_self _ _ _

theorem api_report_core_uc_false (env : Env) (cm : CacheManager) (now : Int) (q : String)
    (k : Int) :
    api_report_core env cm now q k false = report_compute env cm now q k false := by
  simp [api_report_core]

theorem api_report_core_hit (env : Env) (cm : CacheManager) (now : Int) (q : String) (k : Int)
    (r : AskResponse) (cm1 : CacheManager)
    (hE : CacheManager.get env cm now (CacheManager.get_response_key env q k)
      = (some (.resp r), cm1)) :
    api_report_core env cm now q k true
      = ({ r with cached := true },
         match cm1.cache_type with
         | .memory =>
            { cm1 with
              memory_cache :=
                alSetVal cm1.memory_cache (CacheManager.get_response_key env q k) (CacheVal.resp { r with cached := true }) }
         | .redis => cm1) := by
  simp [api_report_core, hE]

theorem api_report_core_miss (env : Env) (cm : CacheManager) (now : Int) (q : String) (k : Int)
    (v : Option CacheVal) (cm1 : CacheManager)
    (hE : CacheManager.get env cm now (CacheManager.get_response_key env q k) = (v, cm1))
    (hv : ∀ r, v ≠ some (.resp r)) :
    api_report_core env cm now q k true = report_compute env cm1 now q k true := by
  cases v with
  | none => simp [api_report_core, hE]
  | some vv =>
      cases vv with
      | emb e => simp [api_report_core, hE]
      | retr r => simp [api_report_core, hE]
      | resp r => exact absurd rfl (hv r)

/-! ### Claims about the cache-manager boundary -/

/-- C7: when the global cache-enabled flag is off, `CacheManager.get`
always reports absent and leaves the backend state unchanged, and
`CacheManager.set` is a no-op, uniformly for every key, value, ttl and
state — the check sits at the top of both functions, before any backend
dispatch. -/
theorem claim7_theorem (env : Env) (cm : CacheManager) (now : Int) (key : String)
    (value : CacheVal) (ttl : Int) (h : env.CACHE_ENABLED = false) :
    CacheManager.get env cm now key = (none, cm)
    ∧ CacheManager.set env cm now key value ttl = cm := by
  constructor
  · unfold CacheManager.get
    rw [if_pos h]
  · unfold CacheManager.set
    rw [if_pos h]

theorem claim7_witness :
    env_off.CACHE_ENABLED = false
    ∧ CacheManager.get env_off cm0 0 "k" = (none, cm0)
    ∧ CacheManager.set env_off cm0 0 "k" (.emb [1]) 60 = cm0 :=
  ⟨rfl, (claim7_theorem env_off cm0 0 "k" (.emb [1]) 60 rfl).1,
        (claim7_theorem env_off cm0 0 "k" (.emb [1]) 60 rfl).2⟩

/-- C5: memory-backend `get` semantics, with caching enabled: an unstored
key reads absent and changes nothing; an entry whose age reaches its ttl
is deleted and reads absent; a live entry reads back exactly the stored
value and changes nothing. -/
theorem claim5_theorem (env : Env) (cm : CacheManager) (now : Int) (key : String)
    (hen : env.CACHE_ENABLED = true) (hct : cm.cache_type = .memory) :
    (alLookup cm.memory_cache key = none → CacheManager.get env cm now key = (none, cm))
    ∧ (∀ v ts ttl, alLookup cm.memory_cache key = some (v, ts, ttl) → ttl ≤ now - ts →
        CacheManager.get env cm now key
          = (none, { cm with memory_cache := alErase cm.memory_cache key })
        ∧ alLookup (CacheManager.get env cm now key).2.memory_cache key = none)
    ∧ (∀ v ts ttl, alLookup cm.memory_cache key = some (v, ts, ttl) → now - ts < ttl →
        CacheManager.get env cm now key = (some v, cm)) := by
  refine ⟨?_, ?_, ?_⟩
  · intro hl
    simp [CacheManager.get, hen, hct, hl]
  · intro v ts ttl hl hexp
    have hgoal : CacheManager.get env cm now key
        = (none, { cm with memory_cache := alErase cm.memory_cache key }) := by
      simp only [CacheManager.get, hen, hct, hl]
      simp [not_lt.mpr hexp]
    refine ⟨hgoal, ?_⟩
    rw [hgoal]
    exact alLookup_alErase_self cm.memory_cache key
  · intro v ts ttl hl hlive
    simp only [CacheManager.get, hen, hct, hl]
    simp [hlive]

theorem claim5_witness :
    (env0.CACHE_ENABLED = true ∧ cm_mem1.cache_type = CacheType.memory
      ∧ alLookup cm_mem1.memory_cache "k0" = none
      ∧ alLookup cm_mem1.memory_cache "k1" = some (.emb [3], 0, 10))
    ∧ CacheManager.get env0 cm_mem1 0 "k0" = (none, cm_mem1)
    ∧ CacheManager.get env0 cm_mem1 3 "k1" = (some (.emb [3]), cm_mem1)
    ∧ alLookup (CacheManager.get env0 cm_mem1 10 "k1").2.memory_cache "k1" = none :=
  ⟨⟨rfl, rfl, by decide, by decide⟩,
   (claim5_theorem env0 cm_mem1 0 "k0" rfl rfl).1 (by decide),
   (claim5_theorem env0 cm_mem1 3 "k1" rfl rfl).2.2 (.emb [3]) 0 10 (by decide) (by decide),
   ((claim5_theorem env0 cm_mem1 10 "k1" rfl rfl).2.1 (.emb [3]) 0 10 (by decide) (by decide)).2⟩

/-- C9: with the memory backend and caching enabled, `set` with a
non-positive ttl stores an entry that is already dead: at any later (or
equal) read time the liveness check `now - stored_at < ttl` is strict and
fails, so the very next `get` deletes the entry and reports absent. -/
theorem claim9_theorem (env : Env) (cm : CacheManager) (t t' : Int) (key : String)
    (value : CacheVal) (ttl : Int)
    (hen : env.CACHE_ENABLED = true) (hct : cm.cache_type = .memory)
    (httl : ttl ≤ 0) (hmono : t ≤ t') :
    alLookup (CacheManager.set env cm t key value ttl).memory_cache key = some (value, t, ttl)
    ∧ (CacheManager.get env (CacheManager.set env cm t key value ttl) t' key).1 = none
    ∧ alLookup
        (CacheManager.get env (CacheManager.set env cm t key value ttl) t' key).2.memory_cache
        key = none := by
  have hset : CacheManager.set env cm t key value ttl
      = { cm with memory_cache := alInsert cm.memory_cache key (value, t, ttl) } := by
    simp [CacheManager.set, hen, hct]
  have hl : alLookup (CacheManager.set env cm t key value ttl).memory_cache key
      = some (value, t, ttl) := by
    rw [hset]
    exact alLookup_alInsert_self cm.memory_cache key (value, t, ttl)
  have hdead : ¬ (t' - t < ttl) := by omega
  have hget : CacheManager.get env (CacheManager.set env cm t key value ttl) t' key
      = (none, { CacheManager.set env cm t key value ttl with
                 memory_cache :=
                   alErase (CacheManager.set env cm t key value ttl).memory_cache key }) := by
    have hct2 : (CacheManager.set env cm t key value ttl).cache_type = CacheType.memory := by
      rw [hset]; exact hct
    simp only [CacheManager.get, hen, hct2, hl]
    simp [hdead]
  refine ⟨hl, ?_, ?_⟩
  · rw [hget]
  · rw [hget]
    exact alLookup_alErase_self _ key

theorem claim9_witness :
    (env0.CACHE_ENABLED = true ∧ cm0.cache_type = CacheType.memory
      ∧ (0 : Int) ≤ 0 ∧ (5 : Int) ≤ 5)
    ∧ alLookup (CacheManager.set env0 cm0 5 "k" (.emb [2]) 0).memory_cache "k"
        = some (.emb [2], 5, 0)
    ∧ (CacheManager.get env0 (CacheManager.set env0 cm0 5 "k" (.emb [2]) 0) 5 "k").1 = none
    ∧ alLookup
        (CacheManager.get env0 (CacheManager.set env0 cm0 5 "k" (.emb [2]) 0) 5 "k").2.memory_cache
        "k" = none :=
  ⟨⟨rfl, rfl, by decide, by decide⟩,
   (claim9_theorem env0 cm0 5 5 "k" (.emb [2]) 0 rfl rfl (by decide) (by decide)).1,
   (claim9_theorem env0 cm0 5 5 "k" (.emb [2]) 0 rfl rfl (by decide) (by decide)).2.1,
   (claim9_theorem env0 cm0 5 5 "k" (.emb [2]) 0 rfl rfl (by decide) (by decide)).2.2⟩

/-- C6: when the redis backend raises, `CacheManager.get` catches the
fault and reports a miss with the state untouched, `CacheManager.set`
catches and drops the write, and the wrapping `embed` operation therefore
computes and returns the fresh embedding from the provider — no fault
ever propagates out of the cache layer. -/
theorem claim6_theorem (env : Env) (cm : CacheManager) (now : Int) (key text : String)
    (value : CacheVal) (ttl : Int)
    (hct : cm.cache_type = .redis) (hf : env.redis_fault = true) :
    CacheManager.get env cm now key = (none, cm)
    ∧ CacheManager.set env cm now key value ttl = cm
    ∧ embed env cm now text = (env.embedApi text, cm) := by
  have hget : ∀ k' : String, CacheManager.get env cm now k' = (none, cm) := by
    intro k'
    by_cases he : env.CACHE_ENABLED = false
    · simp [CacheManager.get, he]
    · simp [CacheManager.get, he, hct, hf]
  have hset : ∀ (k' : String) (v : CacheVal) (tl : Int),
      CacheManager.set env cm now k' v tl = cm := by
    intro k' v tl
    by_cases he : env.CACHE_ENABLED = false
    · simp [CacheManager.set, he]
    · simp [CacheManager.set, he, hct, hf]
  refine ⟨hget key, hset key value ttl, ?_⟩
  simp only [embed, hget, hset]

theorem claim6_witness :
    (cm_redis1.cache_type = CacheType.redis ∧ env_fault.redis_fault = true)
    ∧ CacheManager.get env_fault cm_redis1 0 "k1" = (none, cm_redis1)
    ∧ CacheManager.set env_fault cm_redis1 0 "k2" (.emb [9]) 60 = cm_redis1
    ∧ embed env_fault cm_redis1 0 "q" = (env_fault.embedApi "q", cm_redis1) :=
  ⟨⟨rfl, rfl⟩,
   (claim6_theorem env_fault cm_redis1 0 "k1" "q" (.emb [9]) 60 rfl rfl).1,
   (claim6_theorem env_fault cm_redis1 0 "k2" "q" (.emb [9]) 60 rfl rfl).2.1,
   (claim6_theorem env_fault cm_redis1 0 "k1" "q" (.emb [9]) 60 rfl rfl).2.2⟩

/-- C4 (amended): a failing `flushdb` against the redis backend is caught
inside `CacheManager.clear` (which logs and returns normally, leaving the
keyspace untouched), so the `/cache/clear` endpoint reports success — the
failure does not propagate to the caller of the administrative action. -/
theorem claim4_theorem (env : Env) (cm : CacheManager)
    (hct : cm.cache_type = .redis) (hf : env.redis_fault = true) :
    CacheManager.clear env cm = (.ok (), cm)
    ∧ clear_cache env cm = (.ok "Cache cleared successfully", cm) := by
  have h1 : CacheManager.clear env cm = (.ok (), cm) := by
    unfold CacheManager.clear
    simp [hct, hf]
  refine ⟨h1, ?_⟩
  unfold clear_cache
  rw [h1]

/-- C4 counterexample: with a faulting redis backend, the administrative
clear reports success and the previously cached key is still present —
the claimed propagation of an operational error does not happen. -/
theorem claim4_counterexample :
    clear_cache env_fault cm_redis1 = (.ok "Cache cleared successfully", cm_redis1)
    ∧ alLookup (clear_cache env_fault cm_redis1).2.redis_store "k1" = some (.emb [3], 60) :=
  ⟨rfl, rfl⟩

theorem claim4_witness :
    (cm_redis1.cache_type = CacheType.redis ∧ env_fault.redis_fault = true)
    ∧ CacheManager.clear env_fault cm_redis1 = (.ok (), cm_redis1) :=
  ⟨⟨rfl, rfl⟩, (claim4_theorem env_fault cm_redis1 rfl rfl).1⟩

/-! ### Claims about key derivation -/

/-- C3 counterexample: the colon-joined encoding is ambiguous — the two
distinct argument tuples `("a:b", "c")` and `("a", "b:c")` join to the
same byte sequence and therefore receive the same cache key. -/
theorem claim3_counterexample :
    ¬ ([PyVal.str "a:b", PyVal.str "c"] = [PyVal.str "a", PyVal.str "b:c"])
    ∧ CacheManager.hash_key [PyVal.str "a:b", PyVal.str "c"]
        = CacheManager.hash_key [PyVal.str "a", PyVal.str "b:c"] := by
  refine ⟨by decide, ?_⟩
  have h : String.intercalate ":" ([PyVal.str "a:b", PyVal.str "c"].map pyStr)
      = String.intercalate ":" ([PyVal.str "a", PyVal.str "b:c"].map pyStr) := by decide
  unfold CacheManager.hash_key
  rw [h]

/-- C3 (amended): key derivation joins the `str()` forms of the parts
with a bare colon and hashes the join, so any two tuples whose joined
forms coincide collide — the encoding is not unambiguous.  The example
pairs the spec cites do get distinct keys, because their joins differ and
their SHA-256 digests differ. -/
theorem claim3_theorem :
    (∀ args1 args2 : List PyVal,
        String.intercalate ":" (args1.map pyStr) = String.intercalate ":" (args2.map pyStr) →
        CacheManager.hash_key args1 = CacheManager.hash_key args2)
    ∧ CacheManager.get_retrieval_key "a" 1 ≠ CacheManager.get_retrieval_key "ab" 1
    ∧ CacheManager.get_retrieval_key "a" 1 ≠ CacheManager.get_retrieval_key "a" 2 := by
  refine ⟨?_, by decide, by decide⟩
  intro args1 args2 h
  unfold CacheManager.hash_key
  rw [h]

theorem claim3_witness :
    (String.intercalate ":" ([PyVal.str "x:y", PyVal.str "z"].map pyStr)
       = String.intercalate ":" ([PyVal.str "x", PyVal.str "y:z"].map pyStr))
    ∧ CacheManager.hash_key [PyVal.str "x:y", PyVal.str "z"]
        = CacheManager.hash_key [PyVal.str "x", PyVal.str "y:z"] :=
  ⟨by decide, claim3_theorem.1 _ _ (by decide)⟩

/-! ### Claims about the report endpoint resolution of top-k -/

/-- C10: an omitted, zero or negative `top_k` resolves to the global
`TOP_K` default, a positive one overrides it, the full-answer cache key
is derived from the resolved value, and a request with `top_k` omitted is
processed exactly like one carrying the default explicitly. -/
theorem claim10_theorem (env : Env) (q : String) (uc : Option Bool) (v : Int) :
    effective_top_k env none = env.TOP_K
    ∧ (v ≤ 0 → effective_top_k env (some v) = env.TOP_K)
    ∧ (0 < v → effective_top_k env (some v) = v)
    ∧ report_cache_key env ⟨q, none, uc⟩ = CacheManager.get_response_key env q env.TOP_K
    ∧ (v ≤ 0 → report_cache_key env ⟨q, some v, uc⟩
        = CacheManager.get_response_key env q env.TOP_K)
    ∧ (∀ cm now, api_report env cm now ⟨q, none, uc⟩
        = api_report env cm now ⟨q, some env.TOP_K, uc⟩) := by
  have h1 : effective_top_k env none = env.TOP_K := rfl
  have h2 : ∀ w : Int, w ≤ 0 → effective_top_k env (some w) = env.TOP_K := by
    intro w hw
    simp only [effective_top_k]
    rw [if_neg]
    rintro ⟨hne, hpos⟩
    omega
  have h3 : 0 < v → effective_top_k env (some v) = v := by
    intro hv
    simp only [effective_top_k]
    rw [if_pos ⟨by omega, hv⟩]
  have hsame : effective_top_k env (some env.TOP_K) = effective_top_k env none := by
    simp only [effective_top_k]
    split <;> rfl
  refine ⟨h1, h2 v, h3, rfl, ?_, ?_⟩
  · intro hv
    show CacheManager.get_response_key env q (effective_top_k env (some v))
      = CacheManager.get_response_key env q env.TOP_K
    rw [h2 v hv]
  · intro cm now
    show api_report_core env cm now q (effective_top_k env none) (uc.getD true)
      = api_report_core env cm now q (effective_top_k env (some env.TOP_K)) (uc.getD true)
    rw [hsame]

theorem claim10_witness :
    ((-3 : Int) ≤ 0 ∧ effective_top_k env0 (some (-3)) = env0.TOP_K)
    ∧ ((0 : Int) ≤ 0 ∧ effective_top_k env0 (some 0) = env0.TOP_K)
    ∧ ((0 : Int) < 4 ∧ effective_top_k env0 (some 4) = 4)
    ∧ api_report env0 cm0 0 ⟨"q", none, none⟩
        = api_report env0 cm0 0 ⟨"q", some env0.TOP_K, none⟩ :=
  ⟨⟨by decide, (claim10_theorem env0 "q" none (-3)).2.1 (by decide)⟩,
   ⟨by decide, (claim10_theorem env0 "q" none 0).2.1 (by decide)⟩,
   ⟨by decide, (claim10_theorem env0 "q" none 4).2.2.1 (by decide)⟩,
   (claim10_theorem env0 "q" none 0).2.2.2.2.2 cm0 0⟩

/-! ### Claims about full-answer provenance and the per-request bypass -/

/-- C1 (amended): the full-answer write path always stores the record
with the provenance flag `false`, and a hit returns the record with the
flag flipped to `true`.  With the redis backend the stored record is
untouched by the hit; with the (default) memory backend the flip mutates
the stored record through the shared reference, so storage afterwards
shows `true`. -/
theorem claim1_theorem (env : Env) (cm : CacheManager) (now : Int) (req : AskRequest)
    (huc : req.use_cache.getD true = true) :
    (env.CACHE_ENABLED = true → cm.cache_type = .memory →
      (CacheManager.get env cm now (report_cache_key env req)).1 = none →
      alLookup (api_report env cm now req).2.memory_cache (report_cache_key env req)
        = some (.resp (api_report env cm now req).1, now, 3600)
      ∧ (api_report env cm now req).1.cached = false)
    ∧ (∀ r, (CacheManager.get env cm now (report_cache_key env req)).1 = some (.resp r) →
        (api_report env cm now req).1 = { r with cached := true })
    ∧ (∀ r, env.CACHE_ENABLED = true → cm.cache_type = .memory →
        (CacheManager.get env cm now (report_cache_key env req)).1 = some (.resp r) →
        storedRespFlag (api_report env cm now req).2 (report_cache_key env req) = some true)
    ∧ (∀ r, cm.cache_type = .redis →
        (CacheManager.get env cm now (report_cache_key env req)).1 = some (.resp r) →
        (api_report env cm now req).2 = cm) := by
  rcases req with ⟨q, tk, uco⟩
  have huc' : uco.getD true = true := huc
  have hcore : api_report env cm now ⟨q, tk, uco⟩
      = api_report_core env cm now q (effective_top_k env tk) true := by
    show api_report_core env cm now q (effective_top_k env tk) (uco.getD true)
      = api_report_core env cm now q (effective_top_k env tk) true
    rw [huc']
  have hkey : report_cache_key env ⟨q, tk, uco⟩
      = CacheManager.get_response_key env q (effective_top_k env tk) := rfl
  rw [hcore, hkey]
  rcases hE : CacheManager.get env cm now
      (CacheManager.get_response_key env q (effective_top_k env tk)) with ⟨v, cm1⟩
  refine ⟨?_, ?_, ?_, ?_⟩
  · intro hen hct hmiss
    have hv : v = none := hmiss
    subst hv
    rw [api_report_core_miss env cm now q (effective_top_k env tk) none cm1 hE (by simp)]
    have hct1 : cm1.cache_type = CacheType.memory := by
      have hfr := (get_frame env cm now
        (CacheManager.get_response_key env q (effective_top_k env tk))).1
      rw [hE] at hfr
      rw [hfr, hct]
    exact ⟨report_compute_stores env cm1 now q (effective_top_k env tk) hen hct1,
           (report_compute_resp env cm1 now q (effective_top_k env tk) true).1⟩
  · intro r hr
    have hv : v = some (.resp r) := hr
    subst hv
    rw [api_report_core_hit env cm now q (effective_top_k env tk) r cm1 hE]
  · intro r hen hct hr
    have hv : v = some (.resp r) := hr
    subst hv
    have hv1 : (CacheManager.get env cm now
        (CacheManager.get_response_key env q (effective_top_k env tk))).1
        = some (.resp r) := by rw [hE]
    rcases mem_get_hit env cm now _ (.resp r) hen hct hv1 with ⟨hst, ts, ttl, hlook, hfresh⟩
    have hcm1 : cm1 = cm := by rw [hE] at hst; exact hst
    subst hcm1
    rw [api_report_core_hit env cm1 now q (effective_top_k env tk) r cm1 hE]
    simp only [hct]
    have hset := alLookup_alSetVal_self cm1.memory_cache
      (CacheManager.get_response_key env q (effective_top_k env tk))
      (.resp { r with cached := true }) (.resp r, ts, ttl) hlook
    simp [storedRespFlag, hset]
  · intro r hct hr
    have hv : v = some (.resp r) := hr
    subst hv
    have hst := redis_get_state env cm now
      (CacheManager.get_response_key env q (effective_top_k env tk)) hct
    have hcm1 : cm1 = cm := by rw [hE] at hst; exact hst
    subst hcm1
    rw [api_report_core_hit env cm1 now q (effective_top_k env tk) r cm1 hE]
    simp only [hct]

/-- C1 counterexample: with the (default) memory backend, the first
request stores the answer with `cached = false`; the second, identical
request returns it with `cached = true` — and the record held in storage
afterwards also shows `cached = true`: the hit mutated the stored record,
contradicting the claim that storage is never mutated. -/
theorem claim1_counterexample :
    storedRespFlag (api_report env0 cm0 0 req0).2 (report_cache_key env0 req0) = some false
    ∧ (api_report env0 (api_report env0 cm0 0 req0).2 10 req0).1.cached = true
    ∧ storedRespFlag (api_report env0 (api_report env0 cm0 0 req0).2 10 req0).2
        (report_cache_key env0 req0) = some true :=
  ⟨by decide, by decide, by decide⟩

theorem claim1_witness :
    (env0.CACHE_ENABLED = true ∧ cm0.cache_type = CacheType.memory
      ∧ (CacheManager.get env0 cm0 0 (report_cache_key env0 req0)).1 = none
      ∧ (api_report env0 cm0 0 req0).2.cache_type = CacheType.memory
      ∧ (CacheManager.get env0 (api_report env0 cm0 0 req0).2 10
          (report_cache_key env0 req0)).1 = some (.resp (api_report env0 cm0 0 req0).1))
    ∧ alLookup (api_report env0 cm0 0 req0).2.memory_cache (report_cache_key env0 req0)
        = some (.resp (api_report env0 cm0 0 req0).1, 0, 3600)
    ∧ (api_report env0 cm0 0 req0).1.cached = false
    ∧ (api_report env0 (api_report env0 cm0 0 req0).2 10 req0).1
        = { (api_report env0 cm0 0 req0).1 with cached := true }
    ∧ storedRespFlag (api_report env0 (api_report env0 cm0 0 req0).2 10 req0).2
        (report_cache_key env0 req0) = some true :=
  ⟨⟨rfl, rfl, by decide, by decide, by decide⟩,
   ((claim1_theorem env0 cm0 0 req0 rfl).1 rfl rfl (by decide)).1,
   ((claim1_theorem env0 cm0 0 req0 rfl).1 rfl rfl (by decide)).2,
   (claim1_theorem env0 (api_report env0 cm0 0 req0).2 10 req0 rfl).2.1
     (api_report env0 cm0 0 req0).1 (by decide),
   (claim1_theorem env0 (api_report env0 cm0 0 req0).2 10 req0 rfl).2.2.1
     (api_report env0 cm0 0 req0).1 rfl (by decide) (by decide)⟩

/-- C2 (amended): a request with `use_cache = false` bypasses the
full-answer and retrieval caches — its answer is freshly computed, the
ghost map and every cache entry other than the embedding key of the
question are untouched — but the embedding layer does not honor the
bypass: `embed` takes no such flag, still consults its cache, and on a
miss (memory backend, caching enabled) still writes the fresh embedding
with its 24-hour ttl. -/
theorem claim2_theorem (env : Env) (cm : CacheManager) (now : Int) (req : AskRequest)
    (hbp : req.use_cache = some false) :
    (api_report env cm now req).1.cached = false
    ∧ (api_report env cm now req).2.ghost_chunks = cm.ghost_chunks
    ∧ (∀ k', k' ≠ CacheManager.get_embedding_key env req.question →
        alLookup (api_report env cm now req).2.memory_cache k' = alLookup cm.memory_cache k'
        ∧ alLookup (api_report env cm now req).2.redis_store k' = alLookup cm.redis_store k')
    ∧ (env.CACHE_ENABLED = true → cm.cache_type = .memory →
        alLookup cm.memory_cache (CacheManager.get_embedding_key env req.question) = none →
        alLookup (api_report env cm now req).2.memory_cache
          (CacheManager.get_embedding_key env req.question)
          = some (.emb (env.embedApi req.question), now, 86400)) := by
  rcases req with ⟨q, tk, uco⟩
  have huc : uco.getD true = false := by
    have hq : uco = some false := hbp
    rw [hq]
    rfl
  have hcore : api_report env cm now ⟨q, tk, uco⟩
      = report_compute env cm now q (effective_top_k env tk) false := by
    show api_report_core env cm now q (effective_top_k env tk) (uco.getD true)
      = report_compute env cm now q (effective_top_k env tk) false
    rw [huc, api_report_core_uc_false]
  have hstate : (api_report env cm now ⟨q, tk, uco⟩).2 = (embed env cm now q).2 := by
    rw [hcore, report_compute_state_uc_false, retrieve_uc_false]
  refine ⟨?_, ?_, ?_, ?_⟩
  · rw [hcore]
    exact (report_compute_resp env cm now q (effective_top_k env tk) false).1
  · rw [hstate]
    exact (embed_frame env cm now q).2.1
  · intro k' hk'
    rw [hstate]
    exact (embed_frame env cm now q).2.2 k' hk'
  · intro hen hct hl
    rw [hstate]
    exact embed_miss_write env cm now q hen hct hl

/-- C2 counterexample: a request with the per-request bypass still
changes the cache — on an initially empty memory-backend cache it writes
the embedding of the question, so the state is not unchanged and the
embedding layer was not bypassed. -/
theorem claim2_counterexample :
    ¬ ((api_report env0 cm0 0 req_nc).2 = cm0)
    ∧ alLookup (api_report env0 cm0 0 req_nc).2.memory_cache
        (CacheManager.get_embedding_key env0 "list sales")
        = some (.emb (env0.embedApi "list sales"), 0, 86400) :=
  ⟨by decide, by decide⟩

theorem claim2_witness :
    (req_nc.use_cache = some false ∧ env0.CACHE_ENABLED = true
      ∧ cm0.cache_type = CacheType.memory
      ∧ alLookup cm0.memory_cache (CacheManager.get_embedding_key env0 req_nc.question) = none)
    ∧ (api_report env0 cm0 0 req_nc).1.cached = false
    ∧ (api_report env0 cm0 0 req_nc).2.ghost_chunks = cm0.ghost_chunks
    ∧ alLookup (api_report env0 cm0 0 req_nc).2.memory_cache
        (CacheManager.get_embedding_key env0 req_nc.question)
        = some (.emb (env0.embedApi req_nc.question), 0, 86400) :=
  ⟨⟨rfl, rfl, rfl, by decide⟩,
   (claim2_theorem env0 cm0 0 req_nc rfl).1,
   (claim2_theorem env0 cm0 0 req_nc rfl).2.1,
   (claim2_theorem env0 cm0 0 req_nc rfl).2.2.2 rfl rfl (by decide)⟩

/-! ### Chunk-count accounting -/

/-- C8: a fresh cache manager satisfies the chunk-count invariant, every
`/report` request preserves it, and under it the `retrieved_chunks` field
of the returned answer equals the actual number of context chunks behind
that answer: on the compute path the length of the context list this
request retrieved (from the retrieval cache or freshly), and on a
full-answer hit the context count recorded when the stored answer was
computed. -/
theorem claim8_theorem :
    (∀ ct ok, (CacheManager.make ct ok).respInv = true)
    ∧ ∀ env cm now req, cm.respInv = true →
        (api_report env cm now req).1.retrieved_chunks = report_chunks_used env cm now req
        ∧ ((api_report env cm now req).2).respInv = true := by
  constructor
  · intro ct ok
    unfold CacheManager.make
    split
    · rfl
    · cases ct <;> rfl
  · intro env cm now req hinv
    rcases req with ⟨q, tk, uco⟩
    cases huc : uco.getD true with
    | false =>
        have hcore : api_report env cm now ⟨q, tk, uco⟩
            = report_compute env cm now q (effective_top_k env tk) false := by
          show api_report_core env cm now q (effective_top_k env tk) (uco.getD true)
            = report_compute env cm now q (effective_top_k env tk) false
          rw [huc, api_report_core_uc_false]
        have hrcu : report_chunks_used env cm now ⟨q, tk, uco⟩
            = (retrieve env cm now q (effective_top_k env tk) false).1.length := by
          simp [report_chunks_used, report_cache_key, huc]
        rw [hcore, hrcu]
        exact ⟨(report_compute_resp env cm now q (effective_top_k env tk) false).2,
               respInv_report_compute env cm now q (effective_top_k env tk) false hinv⟩
    | true =>
        have hcore : api_report env cm now ⟨q, tk, uco⟩
            = api_report_core env cm now q (effective_top_k env tk) true := by
          show api_report_core env cm now q (effective_top_k env tk) (uco.getD true)
            = api_report_core env cm now q (effective_top_k env tk) true
          rw [huc]
        rcases hE : CacheManager.get env cm now
            (CacheManager.get_response_key env q (effective_top_k env tk)) with ⟨v, cm1⟩
        have hinv1 : cm1.respInv = true := by
          have hg := respInv_get env cm now
            (CacheManager.get_response_key env q (effective_top_k env tk)) hinv
          rwa [hE] at hg
        cases v with
        | none =>
            rw [hcore, api_report_core_miss env cm now q (effective_top_k env tk) none cm1
              hE (by simp)]
            have hrcu : report_chunks_used env cm now ⟨q, tk, uco⟩
                = (retrieve env cm1 now q (effective_top_k env tk) true).1.length := by
              simp [report_chunks_used, report_cache_key, huc, hE]
            rw [hrcu]
            exact ⟨(report_compute_resp env cm1 now q (effective_top_k env tk) true).2,
                   respInv_report_compute env cm1 now q (effective_top_k env tk) true hinv1⟩
        | some vv =>
            cases vv with
            | emb e =>
                rw [hcore, api_report_core_miss env cm now q (effective_top_k env tk)
                  (some (.emb e)) cm1 hE (by simp)]
                have hrcu : report_chunks_used env cm now ⟨q, tk, uco⟩
                    = (retrieve env cm1 now q (effective_top_k env tk) true).1.length := by
                  simp [report_chunks_used, report_cache_key, huc, hE]
                rw [hrcu]
                exact ⟨(report_compute_resp env cm1 now q (effective_top_k env tk) true).2,
                       respInv_report_compute env cm1 now q (effective_top_k env tk) true hinv1⟩
            | retr rr =>
                rw [hcore, api_report_core_miss env cm now q (effective_top_k env tk)
                  (some (.retr rr)) cm1 hE (by simp)]
                have hrcu : report_chunks_used env cm now ⟨q, tk, uco⟩
                    = (retrieve env cm1 now q (effective_top_k env tk) true).1.length := by
                  simp [report_chunks_used, report_cache_key, huc, hE]
                rw [hrcu]
                exact ⟨(report_compute_resp env cm1 now q (effective_top_k env tk) true).2,
                       respInv_report_compute env cm1 now q (effective_top_k env tk) true hinv1⟩
            | resp r =>
                have hhit := api_report_core_hit env cm now q (effective_top_k env tk) r cm1 hE
                have hv1 : (CacheManager.get env cm now
                    (CacheManager.get_response_key env q (effective_top_k env tk))).1
                    = some (.resp r) := by rw [hE]
                have hrcu : report_chunks_used env cm now ⟨q, tk, uco⟩
                    = (alLookup cm.ghost_chunks
                        (CacheManager.get_response_key env q (effective_top_k env tk))).getD 0 := by
                  simp [report_chunks_used, report_cache_key, huc, hE]
                cases hct : cm.cache_type with
                | memory =>
                    by_cases he : env.CACHE_ENABLED = false
                    · rw [get_off env cm now _ he] at hE
                      simp at hE
                    · have hen : env.CACHE_ENABLED = true := by
                        cases h0 : env.CACHE_ENABLED
                        · exact absurd h0 he
                        · rfl
                      rcases mem_get_hit env cm now _ (.resp r) hen hct hv1 with
                        ⟨hst, ts, ttl, hlook, hfresh⟩
                      have hcm1 : cm1 = cm := by rw [hE] at hst; exact hst
                      subst hcm1
                      have hghost := ghost_of_mem_lookup cm1 _ r ts ttl hct hinv hlook
                      refine ⟨?_, ?_⟩
                      · rw [hcore, hhit, hrcu, hghost]
                        rfl
                      · rw [hcore, hhit]
                        simp only [hct]
                        have hmut := respInv_mutate cm1 _ r ts ttl hct hlook hinv
                        rw [hct] at hmut
                        exact hmut
                | redis =>
                    have hst := redis_get_state env cm now
                      (CacheManager.get_response_key env q (effective_top_k env tk)) hct
                    have hcm1 : cm1 = cm := by rw [hE] at hst; exact hst
                    subst hcm1
                    rcases redis_get_some env cm1 now _ (.resp r) hct hv1 with ⟨tl, hlook⟩
                    have hghost := ghost_of_redis_lookup cm1 _ r tl hct hinv hlook
                    refine ⟨?_, ?_⟩
                    · rw [hcore, hhit, hrcu, hghost]
                      rfl
                    · rw [hcore, hhit]
                      simp only [hct]
                      exact hinv

theorem claim8_witness :
    cm0.respInv = true
    ∧ (api_report env0 cm0 0 req0).1.retrieved_chunks = report_chunks_used env0 cm0 0 req0
    ∧ ((api_report env0 cm0 0 req0).2).respInv = true :=
  ⟨by decide, (claim8_theorem.2 env0 cm0 0 req0 (by decide)).1,
   (claim8_theorem.2 env0 cm0 0 req0 (by decide)).2⟩

end RagApp
